import Mathlib

/-!
Verification development for the sn-events-translator coordination core:
a shallow embedding of `src/server.ts` (session accumulation, interim
debouncing, publisher registry, broadcast dispatch) and of the language
detection / translation-result construction in `src/translation-service.ts`,
together with theorems settling the specification's claims about them.
-/

namespace SNEvents

/-- The two supported language tags (ko and en). -/
inductive Lang
  | ko
  | en
deriving DecidableEq, Repr

/-- One character's membership in the regex character class
`[ㄱ-ㅎ|ㅏ-ㅣ|가-힣]` from `TranslationService.detectLanguage`.
Inside a character class the `|` separators are literal members, so the
class contains: U+3131..U+314E (compatibility jamo consonants), the ASCII
pipe U+007C, U+314F..U+3163 (compatibility jamo vowels), and
U+AC00..U+D7A3 (Hangul syllables). -/
def koreanRegexChar (c : Char) : Bool :=
  (0x3131 ≤ c.toNat && c.toNat ≤ 0x314E) ||
  (c.toNat == 0x7C) ||
  (0x314F ≤ c.toNat && c.toNat ≤ 0x3163) ||
  (0xAC00 ≤ c.toNat && c.toNat ≤ 0xD7A3)

/-- Model of TranslationService.detectLanguage: Korean iff the regex matches
somewhere in the text, else English. -/
def detectLanguage (text : String) : Lang :=
  if text.data.any koreanRegexChar then Lang.ko else Lang.en

/-- Membership of a character in the Korean (Hangul) script's Unicode
blocks: Hangul Jamo U+1100..U+11FF, Hangul Compatibility Jamo
U+3130..U+318F, Hangul Jamo Extended-A U+A960..U+A97F, Hangul Syllables
U+AC00..U+D7A3, Hangul Jamo Extended-B U+D7B0..U+D7FF, and the halfwidth
Hangul forms U+FFA0..U+FFDC. Used to state the detection policy the spec
describes. -/
def isHangulChar (c : Char) : Bool :=
  (0x1100 ≤ c.toNat && c.toNat ≤ 0x11FF) ||
  (0x3130 ≤ c.toNat && c.toNat ≤ 0x318F) ||
  (0xA960 ≤ c.toNat && c.toNat ≤ 0xA97F) ||
  (0xAC00 ≤ c.toNat && c.toNat ≤ 0xD7A3) ||
  (0xD7B0 ≤ c.toNat && c.toNat ≤ 0xD7FF) ||
  (0xFFA0 ≤ c.toNat && c.toNat ≤ 0xFFDC)

/-- Output of `TranslationService.translateText` (the Translation
Gateway's result record). -/
structure TranslationResult where
  originalText : String
  translatedText : String
  sourceLanguage : Lang
  targetLanguage : Lang
deriving DecidableEq, Repr

/-- The tail of `TranslationService.translateText` (after the Whisper
correction pass): reject text that is empty after cleaning, detect the
source language, pick the opposite target, delegate to `translate`
(modelled as an opaque function), and assemble the result. A `none`
result models the thrown error. -/
def translateText (translate : String → Lang → Option String)
    (correctedText : String) : Option TranslationResult :=
  if correctedText = "" then none
  else
    let sourceLanguage := detectLanguage correctedText
    let targetLanguage := if sourceLanguage = Lang.ko then Lang.en else Lang.ko
    (translate correctedText sourceLanguage).map fun tr =>
      { originalText := correctedText
        translatedText := tr
        sourceLanguage := sourceLanguage
        targetLanguage := targetLanguage }

/-! Server data model, from src/server.ts. -/

/-- Identifiers used in the `id` field of broadcast translation messages:
`session-${ts}` for a live session, `interim-${ts}` for the interim
fallback when no session is current, `${ts}` for the final fallback. -/
inductive MsgId
  | session (t : Nat)
  | interim (t : Nat)
  | plain (t : Nat)
deriving DecidableEq, Repr

/-- The `TranslationMessage` broadcast payload. -/
structure TranslationMessage where
  id : MsgId
  originalText : String
  translatedText : String
  sourceLanguage : Lang
  targetLanguage : Lang
  timestamp : Nat
  isFinal : Bool
deriving DecidableEq, Repr

/-- Outbound websocket messages the server produces. -/
inductive OutMsg
  | authSuccess
  | authFailed
  | errorMsg (reason : String)
  | translation (t : TranslationMessage)
  | subscriberCount (n : Nat)
deriving DecidableEq, Repr

/-- Observable effects of a handler step: a targeted `ws.send`, an
invocation of `translationService.translateText` (the Translation
Gateway call), or a console log. -/
inductive Effect
  | send (ws : Nat) (m : OutMsg)
  | gatewayCall (text : String)
  | log (s : String)
deriving DecidableEq, Repr

/-- One `AuthenticatedConnection` registry record; `wsOpen` models
`ws.readyState === WebSocket.OPEN`. -/
structure ConnRecord where
  isPublisher : Bool
  authenticatedAt : Nat
  wsOpen : Bool
deriving DecidableEq, Repr

/-- The connection registry: the `connections` map (association list
keyed by connection id) and the `publisher` pointer. -/
structure Registry where
  conns : List (Nat × ConnRecord)
  publisher : Option Nat
deriving DecidableEq, Repr

/-- Lookup, modelling connections.get(ws). -/
def findRec : List (Nat × ConnRecord) → Nat → Option ConnRecord
  | [], _ => none
  | (k, c) :: t, ws => if k = ws then some c else findRec t ws

/-- Flip the `isPublisher` field of the record stored under `ws`. -/
def setPub : List (Nat × ConnRecord) → Nat → Bool → List (Nat × ConnRecord)
  | [], _, _ => []
  | (k, c) :: t, ws, b =>
    if k = ws then (k, { c with isPublisher := b }) :: setPub t ws b
    else (k, c) :: setPub t ws b

/-- Deletion, modelling connections.delete(ws). -/
def delKey (l : List (Nat × ConnRecord)) (ws : Nat) : List (Nat × ConnRecord) :=
  l.filter fun p => !(p.1 == ws)

/-- The shared publisher secret (`PUBLISHER_PASSWORD` default). -/
def PUBLISHER_PASSWORD : String := "status2024"

/-- Model of broadcastToSubscribers: send the message to every registered
connection whose transport is open. -/
def broadcastToSubscribers (reg : Registry) (m : OutMsg) : List Effect :=
  reg.conns.filterMap fun p => if p.2.wsOpen then some (Effect.send p.1 m) else none

/-- Model of broadcastSubscriberCount: broadcast `connections.size`. -/
def broadcastSubscriberCount (reg : Registry) : List Effect :=
  broadcastToSubscribers reg (OutMsg.subscriberCount reg.conns.length)

/-- The connection handler (wss.on, "connection"): register with default
subscriber role, then broadcast the subscriber count. -/
def handleConnect (reg : Registry) (ws : Nat) (now : Nat) : Registry × List Effect :=
  let reg' : Registry :=
    { reg with conns := (ws, { isPublisher := false, authenticatedAt := now, wsOpen := true }) :: reg.conns }
  (reg', broadcastSubscriberCount reg')

/-- The close handler (ws.on, "close"): clear the publisher pointer when the
closing connection held it, delete the record, broadcast the count. -/
def handleClose (reg : Registry) (ws : Nat) : Registry × List Effect :=
  let pub' : Option Nat :=
    match findRec reg.conns ws with
    | some c => if c.isPublisher then none else reg.publisher
    | none => reg.publisher
  let reg' : Registry := { conns := delKey reg.conns ws, publisher := pub' }
  (reg', broadcastSubscriberCount reg')

/-- Model of handleAuthentication: on the correct secret, demote the previous
publisher's record (if any and still registered), promote the caller's
record, repoint `publisher`, and acknowledge; on a wrong secret, change
nothing and report failure. -/
def handleAuthentication (reg : Registry) (ws : Nat) (password : String) :
    Registry × List Effect :=
  if password = PUBLISHER_PASSWORD then
    let reg1 : Registry :=
      match reg.publisher with
      | some p =>
        if (findRec reg.conns p).isSome then { reg with conns := setPub reg.conns p false }
        else reg
      | none => reg
    let reg2 : Registry :=
      if (findRec reg1.conns ws).isSome then
        { conns := setPub reg1.conns ws true, publisher := some ws }
      else reg1
    (reg2, [Effect.send ws OutMsg.authSuccess])
  else
    (reg, [Effect.send ws OutMsg.authFailed])

/-! Session accumulation and debouncing, from handleTranslation. -/

/-- The pending interim debounce timer. `capturedText` is the
`newSessionText` captured by the scheduled closure; `capturedSessionId`
is ghost state recording `currentSessionId` at scheduling time (the
closure itself captures no identifier); `deadline` is the 500ms expiry. -/
structure PendingInterim where
  capturedText : String
  capturedSessionId : Nat
  deadline : Nat
deriving DecidableEq, Repr

/-- The module-level session/debounce state of `server.ts`. The session
identifier is the `Date.now()` value baked into `session-${ts}`;
`idleDeadline` models the armed 3000ms `sessionTimeout`. -/
structure SessionState where
  lastInterimTranslation : String
  interimTimeout : Option PendingInterim
  currentSessionText : String
  currentSessionId : Option Nat
  idleDeadline : Option Nat
deriving DecidableEq, Repr

/-- Whole-server state: registry plus session/debounce state. -/
structure ServerState where
  reg : Registry
  sess : SessionState
deriving DecidableEq, Repr

/-- The space-join used for accumulation:
`currentSessionText ? currentSessionText + " " + text : text`. -/
def joinText (acc t : String) : String :=
  if acc = "" then t else acc ++ " " ++ t

/-- The session text in force at the top of `handleTranslation`: reset
to `""` when a fresh session is created, else the accumulated text. -/
def baseText (s : SessionState) : String :=
  match s.currentSessionId with
  | none => ""
  | some _ => s.currentSessionText

/-- The session identifier in force after the create-or-continue step:
a fresh `Date.now()` when none is current, else the existing one. -/
def baseSid (s : SessionState) (now : Nat) : Nat :=
  match s.currentSessionId with
  | none => now
  | some k => k

/-- The Translation Gateway as an opaque boundary:
`none` models a thrown/rejected `translateText` call. -/
def Gateway : Type := String → Option TranslationResult

/-- Model of handleTranslation(ws, text, isFinal) at time `now`, with the
gateway call and broadcasts reported as effects. Interim path: create or
continue the session, rearm the idle timer, accumulate, dedupe against
`lastInterimTranslation`, and (re)schedule the 500ms debounce timer.
Final path: cancel the pending timer, accumulate, reset interim
tracking, call the gateway synchronously and broadcast with
`isFinal = true`, or send `Translation failed` to the caller on
gateway failure. -/
def handleTranslation (gw : Gateway) (st : ServerState) (ws : Nat)
    (text : String) (isFinal : Bool) (now : Nat) : ServerState × List Effect :=
  match findRec st.reg.conns ws with
  | none => (st, [Effect.send ws (OutMsg.errorMsg "Only publishers can send translations")])
  | some c =>
    if !c.isPublisher then
      (st, [Effect.send ws (OutMsg.errorMsg "Only publishers can send translations")])
    else
      let sid := baseSid st.sess now
      let text0 := baseText st.sess
      let sess1 : SessionState :=
        { st.sess with
          currentSessionId := some sid
          currentSessionText := text0
          idleDeadline := some (now + 3000) }
      if !isFinal then
        let newSessionText := joinText text0 text
        let sess2 : SessionState := { sess1 with currentSessionText := newSessionText }
        if newSessionText = sess2.lastInterimTranslation then
          ({ st with sess := sess2 }, [])
        else
          let sess3 : SessionState :=
            { sess2 with
              lastInterimTranslation := newSessionText
              interimTimeout := some
                { capturedText := newSessionText
                  capturedSessionId := sid
                  deadline := now + 500 } }
          ({ st with sess := sess3 }, [])
      else
        let finalSessionText := joinText text0 text
        let sess3 : SessionState :=
          { sess1 with
            interimTimeout := none
            currentSessionText := finalSessionText
            lastInterimTranslation := "" }
        match gw finalSessionText with
        | some r =>
          let msg : TranslationMessage :=
            { id := MsgId.session sid
              originalText := r.originalText
              translatedText := r.translatedText
              sourceLanguage := r.sourceLanguage
              targetLanguage := r.targetLanguage
              timestamp := now
              isFinal := true }
          ({ st with sess := sess3 },
            Effect.gatewayCall finalSessionText ::
              broadcastToSubscribers st.reg (OutMsg.translation msg))
        | none =>
          ({ st with sess := sess3 },
            [Effect.gatewayCall finalSessionText,
             Effect.send ws (OutMsg.errorMsg "Translation failed")])

/-- The scheduled interim closure firing, evaluated against the state
current when its awaited gateway call completes: it calls the gateway
with the captured text unconditionally, and on success broadcasts under
`currentSessionId` as read at completion time (falling back to a fresh
`interim-${ts}` id); the session identifier recorded at scheduling time
is never consulted. On failure it only logs. -/
def interimTimerFire (gw : Gateway) (st : ServerState) (captured : PendingInterim)
    (now : Nat) : ServerState × List Effect :=
  match gw captured.capturedText with
  | some r =>
    let msg : TranslationMessage :=
      { id :=
          match st.sess.currentSessionId with
          | some s => MsgId.session s
          | none => MsgId.interim now
        originalText := r.originalText
        translatedText := r.translatedText
        sourceLanguage := r.sourceLanguage
        targetLanguage := r.targetLanguage
        timestamp := now
        isFinal := false }
    (st, Effect.gatewayCall captured.capturedText ::
      broadcastToSubscribers st.reg (OutMsg.translation msg))
  | none =>
    (st, [Effect.gatewayCall captured.capturedText,
          Effect.log "Interim translation error"])

/-- The 3000ms `sessionTimeout` callback: clear the session identifier
and the accumulated text. -/
def sessionTimeoutFire (st : ServerState) : ServerState × List Effect :=
  ({ st with sess :=
      { st.sess with
        currentSessionId := none
        currentSessionText := ""
        idleDeadline := none } }, [])

/-! Registry event traces. -/

/-- Registry-level events: a websocket connecting, closing, or sending
an `auth` message. -/
inductive RegEvent
  | connect (ws : Nat) (now : Nat)
  | disconnect (ws : Nat)
  | auth (ws : Nat) (password : String)
deriving DecidableEq, Repr

/-- One registry step. -/
def regStep (reg : Registry) : RegEvent → Registry × List Effect
  | RegEvent.connect ws now => handleConnect reg ws now
  | RegEvent.disconnect ws => handleClose reg ws
  | RegEvent.auth ws pwd => handleAuthentication reg ws pwd

/-- Run a trace of registry events. -/
def regRun (reg : Registry) : List RegEvent → Registry
  | [] => reg
  | e :: r => regRun (regStep reg e).1 r

/-- Event enabledness: connects use a fresh id; disconnects and auth
messages come from currently registered connections. -/
def enabledB (reg : Registry) : RegEvent → Bool
  | RegEvent.connect ws _ => (findRec reg.conns ws).isNone
  | RegEvent.disconnect ws => (findRec reg.conns ws).isSome
  | RegEvent.auth ws _ => (findRec reg.conns ws).isSome

/-- Well-formed trace from a given registry. -/
def wfB (reg : Registry) : List RegEvent → Bool
  | [] => true
  | e :: r => enabledB reg e && wfB (regStep reg e).1 r

/-- The empty registry the server starts from. -/
def emptyRegistry : Registry := { conns := [], publisher := none }

/-- Specification-side tracking of "the most recent connection that
authenticated with the correct secret and has not since disconnected",
folded over one event. -/
def pubUpd (a : Option Nat) : RegEvent → Option Nat
  | RegEvent.connect _ _ => a
  | RegEvent.disconnect ws => if a = some ws then none else a
  | RegEvent.auth ws pwd => if pwd = PUBLISHER_PASSWORD then some ws else a

/-- The tracker `pubUpd` folded over a trace. -/
def curPub (a : Option Nat) : List RegEvent → Option Nat
  | [] => a
  | e :: r => curPub (pubUpd a e) r

/-- Process a list of interim fragments (text with arrival time). -/
def runInterims (gw : Gateway) (st : ServerState) (ws : Nat) :
    List (String × Nat) → ServerState
  | [] => st
  | (t, now) :: r => runInterims gw (handleTranslation gw st ws t false now).1 ws r

/-! Concrete fixtures. -/

/-- A gateway that always succeeds, echoing the input as original text. -/
def gwOk : Gateway := fun t =>
  some { originalText := t, translatedText := "T",
         sourceLanguage := Lang.en, targetLanguage := Lang.ko }

/-- A gateway that always fails (models a thrown/rejected call). -/
def gwFail : Gateway := fun _ => none

/-- The registry record of an authenticated publisher. -/
def recPub : ConnRecord := { isPublisher := true, authenticatedAt := 0, wsOpen := true }

/-- The registry record of a plain open subscriber. -/
def recSub : ConnRecord := { isPublisher := false, authenticatedAt := 0, wsOpen := true }

/-- A registry with publisher `1` and subscriber `2`. -/
def regPub1 : Registry :=
  { conns := [(1, recPub), (2, recSub)], publisher := some 1 }

/-- A server state mid-session: session `100`, accumulated `"hello"`. -/
def stMid : ServerState :=
  { reg := regPub1,
    sess := { lastInterimTranslation := "hello", interimTimeout := none,
              currentSessionText := "hello", currentSessionId := some 100,
              idleDeadline := some 3100 } }

/-- A server state with no active session and clean interim tracking. -/
def stFresh : ServerState :=
  { reg := regPub1,
    sess := { lastInterimTranslation := "", interimTimeout := none,
              currentSessionText := "", currentSessionId := none,
              idleDeadline := none } }

/-- A pending interim timer scheduled during session `100` with text
`"old words"`. -/
def pendOld : PendingInterim :=
  { capturedText := "old words", capturedSessionId := 100, deadline := 600 }

/-- The same captured text recorded under a different scheduling-time
session identifier. -/
def pendOldB : PendingInterim :=
  { capturedText := "old words", capturedSessionId := 999, deadline := 600 }

/-- A completion-time state in which a newer session `5000` is current
while `pendOld`'s gateway call is still outstanding. -/
def stNewer : ServerState :=
  { reg := regPub1,
    sess := { lastInterimTranslation := "new topic", interimTimeout := some pendOld,
              currentSessionText := "new topic", currentSessionId := some 5000,
              idleDeadline := some 8000 } }

/-- Recognizer for gateway-call effects. -/
def isGatewayCallE : Effect → Bool
  | Effect.gatewayCall _ => true
  | _ => false

/-- Debounce-tracking invariant: a pending interim timer always carries
the text of the most recent interim translation trigger. -/
def pendingMatchesLast (s : SessionState) : Prop :=
  ∀ p, s.interimTimeout = some p → p.capturedText = s.lastInterimTranslation

/-- Number of registry entries with publisher role. -/
def pubCount (l : List (Nat × ConnRecord)) : Nat :=
  (l.filter fun p => p.2.isPublisher).length

/-- Number of registry entries with subscriber role. -/
def subCount (l : List (Nat × ConnRecord)) : Nat :=
  (l.filter fun p => !p.2.isPublisher).length

/-- Keys of the connection map. -/
def keys (l : List (Nat × ConnRecord)) : List Nat := l.map Prod.fst

/-- Registry invariant: unique keys; a publisher-flagged record implies
the pointer names it; the pointer names a registered publisher-flagged
record. -/
def RegInv (reg : Registry) : Prop :=
  (keys reg.conns).Nodup ∧
  (∀ ws c, findRec reg.conns ws = some c → c.isPublisher = true → reg.publisher = some ws) ∧
  (∀ p, reg.publisher = some p → ∃ c, findRec reg.conns p = some c ∧ c.isPublisher = true)

/-! Helper lemmas. -/

/-- The fragment handler never touches the connection registry. -/
theorem handleTranslation_reg (gw : Gateway) (st : ServerState) (ws : Nat)
    (t : String) (fin : Bool) (now : Nat) :
    (handleTranslation gw st ws t fin now).1.reg = st.reg := by
  unfold handleTranslation
  cases findRec st.reg.conns ws with
  | none => rfl
  | some c =>
    cases hp : c.isPublisher <;> cases fin <;>
      simp only [hp, Bool.not_true, Bool.not_false, Bool.false_eq_true, Bool.true_eq_false,
        if_true, if_false, ite_true, ite_false] <;>
      first
        | rfl
        | (split <;> rfl)

/-- A differing interim fragment from the publisher supersedes: it
accumulates, records the new trigger text, and schedules the debounce
timer with the latest accumulated text; no immediate effect is emitted. -/
theorem interim_schedules (gw : Gateway) (st : ServerState) (ws : Nat)
    (t : String) (now : Nat) (c : ConnRecord)
    (hfind : findRec st.reg.conns ws = some c) (hpub : c.isPublisher = true)
    (hded : joinText (baseText st.sess) t ≠ st.sess.lastInterimTranslation) :
    (handleTranslation gw st ws t false now).1 =
      { st with sess :=
        { lastInterimTranslation := joinText (baseText st.sess) t
          interimTimeout := some
            { capturedText := joinText (baseText st.sess) t
              capturedSessionId := baseSid st.sess now
              deadline := now + 500 }
          currentSessionText := joinText (baseText st.sess) t
          currentSessionId := some (baseSid st.sess now)
          idleDeadline := some (now + 3000) } } ∧
    (handleTranslation gw st ws t false now).2 = [] := by
  unfold handleTranslation
  rw [hfind]
  simp [hpub, hded]

/-- An interim fragment whose accumulated text matches the most recent
trigger dedupes: it still accumulates and rearms the idle timer, but
leaves the pending timer and trigger text untouched and emits nothing. -/
theorem interim_dedupes (gw : Gateway) (st : ServerState) (ws : Nat)
    (t : String) (now : Nat) (c : ConnRecord)
    (hfind : findRec st.reg.conns ws = some c) (hpub : c.isPublisher = true)
    (hded : joinText (baseText st.sess) t = st.sess.lastInterimTranslation) :
    (handleTranslation gw st ws t false now).1 =
      { st with sess :=
        { lastInterimTranslation := st.sess.lastInterimTranslation
          interimTimeout := st.sess.interimTimeout
          currentSessionText := joinText (baseText st.sess) t
          currentSessionId := some (baseSid st.sess now)
          idleDeadline := some (now + 3000) } } ∧
    (handleTranslation gw st ws t false now).2 = [] := by
  unfold handleTranslation
  rw [hfind]
  simp [hpub, hded]

/-- The final path's state update: pending timer cancelled, text
accumulated, trigger tracking reset, idle timer rearmed, session kept. -/
theorem final_state_eq (gw : Gateway) (st : ServerState) (ws : Nat)
    (t : String) (now : Nat) (c : ConnRecord)
    (hfind : findRec st.reg.conns ws = some c) (hpub : c.isPublisher = true) :
    (handleTranslation gw st ws t true now).1 =
      { st with sess :=
        { lastInterimTranslation := ""
          interimTimeout := none
          currentSessionText := joinText (baseText st.sess) t
          currentSessionId := some (baseSid st.sess now)
          idleDeadline := some (now + 3000) } } := by
  unfold handleTranslation
  rw [hfind]
  simp only [hpub, Bool.not_true, Bool.false_eq_true, if_false, Bool.not_false, if_true]
  cases gw (joinText (baseText st.sess) t) <;> rfl

/-- Every effect produced by a broadcast is a send of the broadcast
message. -/
theorem mem_broadcast (reg : Registry) (msg : OutMsg) (e : Effect)
    (he : e ∈ broadcastToSubscribers reg msg) : ∃ ws, e = Effect.send ws msg := by
  unfold broadcastToSubscribers at he
  rw [List.mem_filterMap] at he
  obtain ⟨a, _, ha⟩ := he
  by_cases hw : a.2.wsOpen = true
  · rw [if_pos hw] at ha
    exact ⟨a.1, (Option.some_inj.mp ha).symm⟩
  · rw [if_neg hw] at ha
    cases ha

/-- Broadcasts contain no gateway calls. -/
theorem broadcast_no_gatewayCall (reg : Registry) (msg : OutMsg) :
    (broadcastToSubscribers reg msg).filter isGatewayCallE = [] := by
  rw [List.filter_eq_nil_iff]
  intro e he
  obtain ⟨ws2, rfl⟩ := mem_broadcast reg msg e he
  simp [isGatewayCallE]

/-- The final path's effects on gateway success: the synchronous
gateway call followed by the broadcast of a final-flagged event. -/
theorem final_effects_ok (gw : Gateway) (st : ServerState) (ws : Nat)
    (t : String) (now : Nat) (c : ConnRecord) (r : TranslationResult)
    (hfind : findRec st.reg.conns ws = some c) (hpub : c.isPublisher = true)
    (hgw : gw (joinText (baseText st.sess) t) = some r) :
    (handleTranslation gw st ws t true now).2
      = Effect.gatewayCall (joinText (baseText st.sess) t) ::
          broadcastToSubscribers st.reg (OutMsg.translation
            { id := MsgId.session (baseSid st.sess now)
              originalText := r.originalText
              translatedText := r.translatedText
              sourceLanguage := r.sourceLanguage
              targetLanguage := r.targetLanguage
              timestamp := now
              isFinal := true }) := by
  unfold handleTranslation
  rw [hfind]
  simp only [hpub, Bool.not_true, Bool.false_eq_true, if_false, Bool.not_false, if_true, hgw]

/-- The final path's effects on gateway failure: the gateway call
followed by a single error event to the calling publisher. -/
theorem final_effects_fail (gw : Gateway) (st : ServerState) (ws : Nat)
    (t : String) (now : Nat) (c : ConnRecord)
    (hfind : findRec st.reg.conns ws = some c) (hpub : c.isPublisher = true)
    (hgw : gw (joinText (baseText st.sess) t) = none) :
    (handleTranslation gw st ws t true now).2
      = [Effect.gatewayCall (joinText (baseText st.sess) t),
         Effect.send ws (OutMsg.errorMsg "Translation failed")] := by
  unfold handleTranslation
  rw [hfind]
  simp only [hpub, Bool.not_true, Bool.false_eq_true, if_false, Bool.not_false, if_true, hgw]

/-- Every fragment from the publisher rearms the 3000ms idle timer. -/
theorem fragment_rearms_idle (gw : Gateway) (st : ServerState) (ws : Nat)
    (t : String) (fin : Bool) (now : Nat) (c : ConnRecord)
    (hfind : findRec st.reg.conns ws = some c) (hpub : c.isPublisher = true) :
    (handleTranslation gw st ws t fin now).1.sess.idleDeadline = some (now + 3000) := by
  cases fin with
  | false =>
    by_cases hd : joinText (baseText st.sess) t = st.sess.lastInterimTranslation
    · rw [(interim_dedupes gw st ws t now c hfind hpub hd).1]
    · rw [(interim_schedules gw st ws t now c hfind hpub hd).1]
  | true => rw [final_state_eq gw st ws t now c hfind hpub]

/-- Every fragment from the publisher continues (or creates) the
session and accumulates by the join rule. -/
theorem fragment_session_fields (gw : Gateway) (st : ServerState) (ws : Nat)
    (t : String) (fin : Bool) (now : Nat) (c : ConnRecord)
    (hfind : findRec st.reg.conns ws = some c) (hpub : c.isPublisher = true) :
    (handleTranslation gw st ws t fin now).1.sess.currentSessionId
        = some (baseSid st.sess now) ∧
    (handleTranslation gw st ws t fin now).1.sess.currentSessionText
        = joinText (baseText st.sess) t := by
  cases fin with
  | false =>
    by_cases hd : joinText (baseText st.sess) t = st.sess.lastInterimTranslation
    · rw [(interim_dedupes gw st ws t now c hfind hpub hd).1]
      exact ⟨rfl, rfl⟩
    · rw [(interim_schedules gw st ws t now c hfind hpub hd).1]
      exact ⟨rfl, rfl⟩
  | true =>
    rw [final_state_eq gw st ws t now c hfind hpub]
    exact ⟨rfl, rfl⟩

/-- One interim step preserves the trigger-tracking invariant, and
afterwards any pending timer carries exactly the current accumulated
text. -/
theorem interim_step_post (gw : Gateway) (st : ServerState) (ws : Nat) (t : String)
    (now : Nat) (c : ConnRecord)
    (hfind : findRec st.reg.conns ws = some c) (hpub : c.isPublisher = true)
    (hJ : pendingMatchesLast st.sess) :
    pendingMatchesLast (handleTranslation gw st ws t false now).1.sess ∧
    (∀ p, (handleTranslation gw st ws t false now).1.sess.interimTimeout = some p →
        p.capturedText = (handleTranslation gw st ws t false now).1.sess.currentSessionText) := by
  by_cases hd : joinText (baseText st.sess) t = st.sess.lastInterimTranslation
  · rw [(interim_dedupes gw st ws t now c hfind hpub hd).1]
    constructor
    · intro p hp
      exact hJ p hp
    · intro p hp
      have hc := hJ p hp
      rw [hc]
      exact hd.symm
  · rw [(interim_schedules gw st ws t now c hfind hpub hd).1]
    constructor
    · intro p hp
      rw [← Option.some_inj.mp hp]
    · intro p hp
      rw [← Option.some_inj.mp hp]

/-- Over any run of interim fragments, the invariant persists, and for a
nonempty run the pending timer (if any) carries the final accumulated
text. -/
theorem runInterims_post (gw : Gateway) (ws : Nat) (c : ConnRecord)
    (l : List (String × Nat)) :
    ∀ (st : ServerState), findRec st.reg.conns ws = some c → c.isPublisher = true →
    pendingMatchesLast st.sess →
    pendingMatchesLast (runInterims gw st ws l).sess ∧
    (l ≠ [] → ∀ p, (runInterims gw st ws l).sess.interimTimeout = some p →
        p.capturedText = (runInterims gw st ws l).sess.currentSessionText) := by
  induction l with
  | nil =>
    intro st hfind hpub hJ
    exact ⟨hJ, fun h => absurd rfl h⟩
  | cons hd tl ih =>
    intro st hfind hpub hJ
    obtain ⟨t, now⟩ := hd
    have hstep := interim_step_post gw st ws t now c hfind hpub hJ
    have hreg : findRec (handleTranslation gw st ws t false now).1.reg.conns ws = some c := by
      rw [handleTranslation_reg]
      exact hfind
    cases tl with
    | nil =>
      exact ⟨hstep.1, fun _ => hstep.2⟩
    | cons y ys =>
      have hih := ih (handleTranslation gw st ws t false now).1 hreg hpub hstep.1
      exact ⟨hih.1, fun _ => hih.2 (by simp)⟩

/-- A list's length splits into subscriber-role and publisher-role
counts. -/
theorem length_eq_subCount_add_pubCount (l : List (Nat × ConnRecord)) :
    l.length = subCount l + pubCount l := by
  induction l with
  | nil => rfl
  | cons p t ih =>
    cases hp : p.2.isPublisher <;>
      simp [subCount, pubCount, List.filter_cons, hp] at ih ⊢ <;> omega

/-- Lookup fails exactly when the key is absent. -/
theorem findRec_eq_none_iff (l : List (Nat × ConnRecord)) (ws : Nat) :
    findRec l ws = none ↔ ws ∉ keys l := by
  induction l with
  | nil => simp [findRec, keys]
  | cons p t ih =>
    obtain ⟨k, c⟩ := p
    by_cases h : k = ws
    · subst h
      simp [findRec, keys]
    · simp [findRec, keys, h, ih, Ne.symm h]

/-- Flipping the publisher flag under one key leaves all keys in
place. -/
theorem keys_setPub (l : List (Nat × ConnRecord)) (ws : Nat) (b : Bool) :
    keys (setPub l ws b) = keys l := by
  induction l with
  | nil => rfl
  | cons p t ih =>
    obtain ⟨k, c⟩ := p
    simp only [keys] at ih ⊢
    by_cases h : k = ws <;> simp [setPub, h, ih]

/-- Lookup of the flipped key returns the flipped record. -/
theorem findRec_setPub_self (l : List (Nat × ConnRecord)) (ws : Nat) (b : Bool) :
    findRec (setPub l ws b) ws
      = (findRec l ws).map fun c => { c with isPublisher := b } := by
  induction l with
  | nil => rfl
  | cons p t ih =>
    obtain ⟨k, c⟩ := p
    by_cases h : k = ws
    · subst h
      simp [setPub, findRec]
    · simp [setPub, findRec, h, ih]

/-- Lookup of any other key is unchanged by the flip. -/
theorem findRec_setPub_ne (l : List (Nat × ConnRecord)) (ws : Nat) (b : Bool)
    (ws' : Nat) (h : ws' ≠ ws) :
    findRec (setPub l ws b) ws' = findRec l ws' := by
  induction l with
  | nil => rfl
  | cons p t ih =>
    obtain ⟨k, c⟩ := p
    by_cases hk : k = ws
    · subst hk
      simp [setPub, findRec, Ne.symm h, ih]
    · by_cases hk' : k = ws' <;> simp [setPub, findRec, hk, hk', h, ih]

/-- Deleting a key removes it from lookup. -/
theorem findRec_delKey_self (l : List (Nat × ConnRecord)) (ws : Nat) :
    findRec (delKey l ws) ws = none := by
  induction l with
  | nil => rfl
  | cons p t ih =>
    obtain ⟨k, c⟩ := p
    simp only [delKey] at ih ⊢
    rw [List.filter_cons]
    by_cases h : k = ws
    · subst h
      simp [ih]
    · simp [h, findRec, ih]

/-- Deleting one key leaves other lookups unchanged. -/
theorem findRec_delKey_ne (l : List (Nat × ConnRecord)) (ws ws' : Nat) (h : ws' ≠ ws) :
    findRec (delKey l ws) ws' = findRec l ws' := by
  induction l with
  | nil => rfl
  | cons p t ih =>
    obtain ⟨k, c⟩ := p
    simp only [delKey] at ih ⊢
    rw [List.filter_cons]
    by_cases hk : k = ws
    · subst hk
      simp [findRec, Ne.symm h, ih]
    · by_cases hk' : k = ws' <;> simp [findRec, hk, hk', h, ih]

/-- Deletion keeps the key list a sublist of the original. -/
theorem keys_delKey_sublist (l : List (Nat × ConnRecord)) (ws : Nat) :
    (keys (delKey l ws)).Sublist (keys l) :=
  (List.filter_sublist l).map Prod.fst

/-- With unique keys, membership determines the lookup result. -/
theorem mem_findRec_of_nodup (l : List (Nat × ConnRecord)) (h : (keys l).Nodup)
    (ws : Nat) (c : ConnRecord) (hm : (ws, c) ∈ l) :
    findRec l ws = some c := by
  induction l with
  | nil => cases hm
  | cons p t ih =>
    obtain ⟨k, c0⟩ := p
    have hnd := List.nodup_cons.mp h
    rcases List.mem_cons.mp hm with heq | hmem
    · obtain ⟨h1, h2⟩ := Prod.mk.inj heq
      subst h1
      subst h2
      simp [findRec]
    · have hws : ws ∈ keys t := List.mem_map_of_mem Prod.fst hmem
      have hk : k ≠ ws := by
        intro hk
        subst hk
        exact hnd.1 hws
      simp [findRec, hk]
      exact ih hnd.2 hmem

/-- Registering a fresh connection preserves the registry invariant and
the publisher pointer. -/
theorem handleConnect_preserves (reg : Registry) (ws now : Nat)
    (hInv : RegInv reg) (hfresh : findRec reg.conns ws = none) :
    RegInv (handleConnect reg ws now).1 ∧
    (handleConnect reg ws now).1.publisher = reg.publisher := by
  obtain ⟨hnd, hflag, hptr⟩ := hInv
  have hws : ws ∉ keys reg.conns := (findRec_eq_none_iff _ _).mp hfresh
  refine ⟨⟨?_, ?_, ?_⟩, rfl⟩
  · exact List.nodup_cons.mpr ⟨hws, hnd⟩
  · intro ws' c' hf hc
    by_cases hw : ws = ws'
    · subst hw
      simp only [handleConnect, findRec, if_pos rfl] at hf
      rw [← Option.some_inj.mp hf] at hc
      cases hc
    · simp only [handleConnect, findRec] at hf
      rw [if_neg hw] at hf
      exact hflag ws' c' hf hc
  · intro p hp
    obtain ⟨c1, hc1, hc2⟩ := hptr p hp
    have hpw : ws ≠ p := by
      intro hh
      subst hh
      rw [hfresh] at hc1
      cases hc1
    refine ⟨c1, ?_, hc2⟩
    show findRec ((ws, _) :: reg.conns) p = some c1
    rw [findRec, if_neg hpw]
    exact hc1

/-- Closing a connection preserves the invariant; the pointer is
cleared exactly when the closing connection was the publisher. -/
theorem handleClose_preserves (reg : Registry) (ws : Nat) (hInv : RegInv reg) :
    RegInv (handleClose reg ws).1 ∧
    (handleClose reg ws).1.publisher
      = (if reg.publisher = some ws then none else reg.publisher) := by
  obtain ⟨hnd, hflag, hptr⟩ := hInv
  have hconns : (handleClose reg ws).1.conns = delKey reg.conns ws := rfl
  have hnd' : (keys (delKey reg.conns ws)).Nodup := (keys_delKey_sublist _ _).nodup hnd
  cases hf : findRec reg.conns ws with
  | none =>
    have hne : reg.publisher ≠ some ws := by
      intro hp
      obtain ⟨c1, hc1, _⟩ := hptr ws hp
      rw [hf] at hc1
      cases hc1
    have hpub : (handleClose reg ws).1.publisher = reg.publisher := by
      simp [handleClose, hf]
    refine ⟨⟨?_, ?_, ?_⟩, ?_⟩
    · rw [hconns]
      exact hnd'
    · intro ws' c' hf' hc'
      rw [hconns] at hf'
      have hww : ws' ≠ ws := by
        intro hh
        subst hh
        rw [findRec_delKey_self] at hf'
        cases hf'
      rw [findRec_delKey_ne _ _ _ hww] at hf'
      rw [hpub]
      exact hflag ws' c' hf' hc'
    · intro p hp
      rw [hpub] at hp
      obtain ⟨c1, hc1, hc2⟩ := hptr p hp
      have hpw : p ≠ ws := by
        intro hh
        subst hh
        rw [hf] at hc1
        cases hc1
      rw [hconns, findRec_delKey_ne _ _ _ hpw]
      exact ⟨c1, hc1, hc2⟩
    · rw [hpub, if_neg hne]
  | some c0 =>
    cases hc0 : c0.isPublisher with
    | true =>
      have hpubws : reg.publisher = some ws := hflag ws c0 hf hc0
      have hpub : (handleClose reg ws).1.publisher = none := by
        simp [handleClose, hf, hc0]
      refine ⟨⟨?_, ?_, ?_⟩, ?_⟩
      · rw [hconns]
        exact hnd'
      · intro ws' c' hf' hc'
        rw [hconns] at hf'
        have hww : ws' ≠ ws := by
          intro hh
          subst hh
          rw [findRec_delKey_self] at hf'
          cases hf'
        have h2 := hflag ws' c' (by rwa [findRec_delKey_ne _ _ _ hww] at hf') hc'
        rw [hpubws] at h2
        exact absurd (Option.some_inj.mp h2).symm hww
      · intro p hp
        rw [hpub] at hp
        cases hp
      · rw [hpub, if_pos hpubws]
    | false =>
      have hne : reg.publisher ≠ some ws := by
        intro hp
        obtain ⟨c1, hc1, hc2⟩ := hptr ws hp
        rw [hf] at hc1
        rw [← Option.some_inj.mp hc1] at hc2
        rw [hc0] at hc2
        cases hc2
      have hpub : (handleClose reg ws).1.publisher = reg.publisher := by
        simp [handleClose, hf, hc0]
      refine ⟨⟨?_, ?_, ?_⟩, ?_⟩
      · rw [hconns]
        exact hnd'
      · intro ws' c' hf' hc'
        rw [hconns] at hf'
        have hww : ws' ≠ ws := by
          intro hh
          subst hh
          rw [findRec_delKey_self] at hf'
          cases hf'
        rw [findRec_delKey_ne _ _ _ hww] at hf'
        rw [hpub]
        exact hflag ws' c' hf' hc'
      · intro p hp
        rw [hpub] at hp
        obtain ⟨c1, hc1, hc2⟩ := hptr p hp
        have hpw : p ≠ ws := by
          intro hh
          subst hh
          rw [hf] at hc1
          rw [← Option.some_inj.mp hc1] at hc2
          rw [hc0] at hc2
          cases hc2
        rw [hconns, findRec_delKey_ne _ _ _ hpw]
        exact ⟨c1, hc1, hc2⟩
      · rw [hpub, if_neg hne]

/-- A failed authentication changes nothing in the registry. -/
theorem handleAuthentication_failure (reg : Registry) (ws : Nat) (pwd : String)
    (h : pwd ≠ PUBLISHER_PASSWORD) :
    (handleAuthentication reg ws pwd).1 = reg := by
  unfold handleAuthentication
  rw [if_neg h]

/-- Promoting a registered connection over a registry whose other
records are all unflagged yields the invariant with that connection as
publisher. -/
theorem promote_inv (conns1 : List (Nat × ConnRecord)) (ws : Nat)
    (hnd1 : (keys conns1).Nodup)
    (hreg1 : (findRec conns1 ws).isSome = true)
    (hnoflag : ∀ ws' c', ws' ≠ ws → findRec conns1 ws' = some c' →
        c'.isPublisher = false) :
    RegInv { conns := setPub conns1 ws true, publisher := some ws } := by
  refine ⟨?_, ?_, ?_⟩
  · rw [show keys (setPub conns1 ws true) = keys conns1 from keys_setPub _ _ _]
    exact hnd1
  · intro ws' c' hf hc
    by_cases hw : ws' = ws
    · rw [hw]
    · rw [findRec_setPub_ne _ _ _ _ hw] at hf
      rw [hnoflag ws' c' hw hf] at hc
      cases hc
  · intro p hp
    have hpw : ws = p := Option.some_inj.mp hp
    subst hpw
    obtain ⟨c1, hc1⟩ := Option.isSome_iff_exists.mp hreg1
    refine ⟨{ c1 with isPublisher := true }, ?_, rfl⟩
    rw [findRec_setPub_self, hc1]
    rfl

/-- A successful authentication preserves the invariant and makes the
caller the publisher. -/
theorem handleAuthentication_success (reg : Registry) (ws : Nat)
    (hInv : RegInv reg) (hreg : (findRec reg.conns ws).isSome = true) :
    RegInv (handleAuthentication reg ws PUBLISHER_PASSWORD).1 ∧
    (handleAuthentication reg ws PUBLISHER_PASSWORD).1.publisher = some ws := by
  obtain ⟨hnd, hflag, hptr⟩ := hInv
  cases hp : reg.publisher with
  | none =>
    have hstate : (handleAuthentication reg ws PUBLISHER_PASSWORD).1
        = { conns := setPub reg.conns ws true, publisher := some ws } := by
      unfold handleAuthentication
      rw [if_pos rfl]
      simp only [hp, hreg, if_pos]
    rw [hstate]
    refine ⟨promote_inv reg.conns ws hnd hreg ?_, rfl⟩
    intro ws' c' hw hf
    cases hb : c'.isPublisher with
    | false => rfl
    | true =>
      have := hflag ws' c' hf hb
      rw [hp] at this
      cases this
  | some p =>
    cases hfp : findRec reg.conns p with
    | none =>
      have hstate : (handleAuthentication reg ws PUBLISHER_PASSWORD).1
          = { conns := setPub reg.conns ws true, publisher := some ws } := by
        unfold handleAuthentication
        rw [if_pos rfl]
        simp only [hp, hfp, Option.isSome_none, Bool.false_eq_true, if_false, hreg, if_pos]
      rw [hstate]
      refine ⟨promote_inv reg.conns ws hnd hreg ?_, rfl⟩
      intro ws' c' hw hf
      cases hb : c'.isPublisher with
      | false => rfl
      | true =>
        have h2 := hflag ws' c' hf hb
        rw [hp] at h2
        have hwp : ws' = p := Option.some_inj.mp h2.symm
        subst hwp
        rw [hfp] at hf
        cases hf
    | some c0 =>
      have hreg1 : (findRec (setPub reg.conns p false) ws).isSome = true := by
        by_cases hw : ws = p
        · subst hw
          rw [findRec_setPub_self, hfp]
          rfl
        · rw [findRec_setPub_ne _ _ _ _ hw]
          exact hreg
      have hstate : (handleAuthentication reg ws PUBLISHER_PASSWORD).1
          = { conns := setPub (setPub reg.conns p false) ws true, publisher := some ws } := by
        unfold handleAuthentication
        rw [if_pos rfl]
        simp only [hp, hfp, Option.isSome_some, if_pos, hreg1]
      rw [hstate]
      have hnd1 : (keys (setPub reg.conns p false)).Nodup := by
        rw [keys_setPub]
        exact hnd
      refine ⟨promote_inv (setPub reg.conns p false) ws hnd1 hreg1 ?_, rfl⟩
      intro ws' c' hw hf
      by_cases hwp : ws' = p
      · subst hwp
        rw [findRec_setPub_self, hfp] at hf
        rw [← Option.some_inj.mp hf]
      · rw [findRec_setPub_ne _ _ _ _ hwp] at hf
        cases hb : c'.isPublisher with
        | false => rfl
        | true =>
          have h2 := hflag ws' c' hf hb
          rw [hp] at h2
          exact absurd (Option.some_inj.mp h2.symm) hwp

/-- One enabled registry event preserves the invariant and updates the
publisher pointer exactly as the specification-side tracker does. -/
theorem regStep_preserves (reg : Registry) (e : RegEvent)
    (hInv : RegInv reg) (hen : enabledB reg e = true) :
    RegInv (regStep reg e).1 ∧ (regStep reg e).1.publisher = pubUpd reg.publisher e := by
  cases e with
  | connect ws now =>
    have hfresh : findRec reg.conns ws = none := by
      simpa [enabledB, Option.isNone_iff_eq_none] using hen
    exact handleConnect_preserves reg ws now hInv hfresh
  | disconnect ws =>
    exact handleClose_preserves reg ws hInv
  | auth ws pwd =>
    by_cases hpw : pwd = PUBLISHER_PASSWORD
    · subst hpw
      have h := handleAuthentication_success reg ws hInv (by simpa [enabledB] using hen)
      refine ⟨h.1, ?_⟩
      show (handleAuthentication reg ws PUBLISHER_PASSWORD).1.publisher
          = pubUpd reg.publisher (RegEvent.auth ws PUBLISHER_PASSWORD)
      rw [h.2]
      simp [pubUpd]
    · rw [show (regStep reg (RegEvent.auth ws pwd)).1 = (handleAuthentication reg ws pwd).1 from rfl,
        handleAuthentication_failure reg ws pwd hpw]
      exact ⟨⟨(hInv).1, (hInv).2.1, (hInv).2.2⟩, by simp [pubUpd, hpw]⟩

/-- The empty registry satisfies the invariant. -/
theorem RegInv_empty : RegInv emptyRegistry := by
  refine ⟨List.nodup_nil, ?_, ?_⟩
  · intro ws c h
    cases h
  · intro p hp
    cases hp

/-- Running a well-formed trace preserves the invariant and keeps the
publisher pointer equal to the specification-side tracker. -/
theorem regRun_preserves (tr : List RegEvent) :
    ∀ (reg : Registry), RegInv reg → wfB reg tr = true →
    RegInv (regRun reg tr) ∧ (regRun reg tr).publisher = curPub reg.publisher tr := by
  induction tr with
  | nil =>
    intro reg h _
    exact ⟨h, rfl⟩
  | cons e r ih =>
    intro reg hInv hwf
    have h1 : enabledB reg e = true ∧ wfB (regStep reg e).1 r = true := by
      simpa [wfB, Bool.and_eq_true] using hwf
    have hstep := regStep_preserves reg e hInv h1.1
    have hih := ih (regStep reg e).1 hstep.1 h1.2
    refine ⟨hih.1, ?_⟩
    rw [show curPub reg.publisher (e :: r) = curPub (pubUpd reg.publisher e) r from rfl,
      ← hstep.2]
    exact hih.2

/-! Claim theorems. -/

/-- C1, counterexample: with session `100` holding `"hello"`, the
publisher's final fragment `"world"` reaches the translation step
(`gwOk` succeeds), yet afterwards the accumulated text is the full
`"hello world"` and the session identifier is still `100` — the claimed
reset to the empty string and cleared identifier does not happen. -/
theorem C1_counterexample :
    (handleTranslation gwOk stMid 1 "world" true 200).1.sess.currentSessionText = "hello world" ∧
    (handleTranslation gwOk stMid 1 "world" true 200).1.sess.currentSessionId = some 100 ∧
    ¬((handleTranslation gwOk stMid 1 "world" true 200).1.sess.currentSessionText = "" ∧
      (handleTranslation gwOk stMid 1 "world" true 200).1.sess.currentSessionId = none) := by
  decide

/-- C1, amended: on a final-path call from the publisher, the
accumulated session text is set to the full joined text (old text plus
final fragment) and the session identifier is retained; only
`lastInterimTranslation` is reset to empty and the pending interim timer
cleared. Session text and identifier are cleared by the idle timeout,
not by the final path. -/
theorem C1_final_keeps_session (gw : Gateway) (st : ServerState) (ws : Nat)
    (text : String) (now : Nat) (c : ConnRecord)
    (hfind : findRec st.reg.conns ws = some c) (hpub : c.isPublisher = true) :
    (handleTranslation gw st ws text true now).1.sess.currentSessionText
        = joinText (baseText st.sess) text ∧
    (handleTranslation gw st ws text true now).1.sess.currentSessionId
        = some (baseSid st.sess now) ∧
    (handleTranslation gw st ws text true now).1.sess.lastInterimTranslation = "" ∧
    (handleTranslation gw st ws text true now).1.sess.interimTimeout = none := by
  unfold handleTranslation
  rw [hfind]
  simp only [hpub, Bool.not_true, Bool.false_eq_true, if_false, Bool.not_false, if_true]
  cases gw (joinText (baseText st.sess) text) <;> simp

/-- Witness for `C1_final_keeps_session` at the concrete mid-session
state. -/
theorem C1_final_keeps_session_witness :
    (handleTranslation gwOk stMid 1 "world" true 200).1.sess.currentSessionText
        = joinText (baseText stMid.sess) "world" ∧
    (handleTranslation gwOk stMid 1 "world" true 200).1.sess.currentSessionId
        = some (baseSid stMid.sess 200) ∧
    (handleTranslation gwOk stMid 1 "world" true 200).1.sess.lastInterimTranslation = "" ∧
    (handleTranslation gwOk stMid 1 "world" true 200).1.sess.interimTimeout = none :=
  C1_final_keeps_session gwOk stMid 1 "world" 200 recPub (by decide) (by decide)

/-- C2, counterexample: the interim closure scheduled under session
`100` with text `"old words"` completes while session `5000` is
current; it still issues the gateway call for the captured text and
broadcasts a translation event carrying the newer session's identifier
`5000` — it is not ignored. -/
theorem C2_counterexample :
    pendOld.capturedSessionId ≠ 5000 ∧
    stNewer.sess.currentSessionId = some 5000 ∧
    Effect.gatewayCall "old words" ∈ (interimTimerFire gwOk stNewer pendOld 5600).2 ∧
    Effect.send 2 (OutMsg.translation
      { id := MsgId.session 5000, originalText := "old words", translatedText := "T",
        sourceLanguage := Lang.en, targetLanguage := Lang.ko, timestamp := 5600,
        isFinal := false }) ∈ (interimTimerFire gwOk stNewer pendOld 5600).2 := by
  decide

/-- C2, amended: the interim closure consults no captured session
identifier — its behaviour depends only on the captured text — and on a
successful gateway result it broadcasts under whatever session
identifier is current at completion time. -/
theorem C2_fire_has_no_staleness_guard (gw : Gateway) (st : ServerState)
    (p q : PendingInterim) (now : Nat) (h : p.capturedText = q.capturedText) :
    interimTimerFire gw st p now = interimTimerFire gw st q now ∧
    (∀ r s, gw p.capturedText = some r → st.sess.currentSessionId = some s →
      (interimTimerFire gw st p now).2
        = Effect.gatewayCall p.capturedText ::
            broadcastToSubscribers st.reg (OutMsg.translation
              { id := MsgId.session s, originalText := r.originalText,
                translatedText := r.translatedText, sourceLanguage := r.sourceLanguage,
                targetLanguage := r.targetLanguage, timestamp := now, isFinal := false })) := by
  constructor
  · unfold interimTimerFire
    rw [h]
  · intro r s hr hs
    unfold interimTimerFire
    rw [hr, hs]

/-- Witness for `C2_fire_has_no_staleness_guard`: two pending records
sharing the text `"old words"` but captured under sessions `100` and
`999` produce identical firings, broadcasting under the current session
`5000`. -/
theorem C2_fire_has_no_staleness_guard_witness :
    interimTimerFire gwOk stNewer pendOld 5600 = interimTimerFire gwOk stNewer pendOldB 5600 ∧
    (∀ r s, gwOk pendOld.capturedText = some r → stNewer.sess.currentSessionId = some s →
      (interimTimerFire gwOk stNewer pendOld 5600).2
        = Effect.gatewayCall pendOld.capturedText ::
            broadcastToSubscribers stNewer.reg (OutMsg.translation
              { id := MsgId.session s, originalText := r.originalText,
                translatedText := r.translatedText, sourceLanguage := r.sourceLanguage,
                targetLanguage := r.targetLanguage, timestamp := 5600, isFinal := false })) :=
  C2_fire_has_no_staleness_guard gwOk stNewer pendOld pendOldB 5600 (by decide)

/-- C3, counterexample: the whitespace-only fragment `" "` from the
publisher, arriving with no active session, creates session `100`,
sets the accumulated text to `" "`, and schedules an interim gateway
call for `" "` — none of which the claim permits. -/
theorem C3_counterexample :
    (" ".data.all Char.isWhitespace) = true ∧
    stFresh.sess.currentSessionId = none ∧
    (handleTranslation gwOk stFresh 1 " " false 100).1.sess.currentSessionId = some 100 ∧
    (handleTranslation gwOk stFresh 1 " " false 100).1.sess.currentSessionText = " " ∧
    (handleTranslation gwOk stFresh 1 " " false 100).1.sess.interimTimeout
      = some { capturedText := " ", capturedSessionId := 100, deadline := 600 } := by
  decide

/-- C3, amended: `handleTranslation` applies no emptiness or whitespace
filter: any publisher fragment — whitespace-only included — with no
active session creates one, sets the accumulated text to the fragment
text, and (when that text differs from the last interim trigger)
schedules the interim gateway call. -/
theorem C3_no_empty_filter (gw : Gateway) (st : ServerState) (ws : Nat)
    (text : String) (now : Nat) (c : ConnRecord)
    (hfind : findRec st.reg.conns ws = some c) (hpub : c.isPublisher = true)
    (hsid : st.sess.currentSessionId = none)
    (hded : text ≠ st.sess.lastInterimTranslation) :
    (handleTranslation gw st ws text false now).1.sess.currentSessionId = some now ∧
    (handleTranslation gw st ws text false now).1.sess.currentSessionText = text ∧
    (handleTranslation gw st ws text false now).1.sess.interimTimeout
      = some { capturedText := text, capturedSessionId := now, deadline := now + 500 } := by
  unfold handleTranslation
  rw [hfind]
  simp only [hpub, Bool.not_true, Bool.false_eq_true, if_false, Bool.not_false, if_true,
    baseSid, baseText, hsid]
  have hj : joinText "" text = text := by simp [joinText]
  rw [hj]
  simp [hded]

/-- Witness for `C3_no_empty_filter` at the whitespace-only fragment
`" "`. -/
theorem C3_no_empty_filter_witness :
    (handleTranslation gwOk stFresh 1 " " false 100).1.sess.currentSessionId = some 100 ∧
    (handleTranslation gwOk stFresh 1 " " false 100).1.sess.currentSessionText = " " ∧
    (handleTranslation gwOk stFresh 1 " " false 100).1.sess.interimTimeout
      = some { capturedText := " ", capturedSessionId := 100, deadline := 100 + 500 } :=
  C3_no_empty_filter gwOk stFresh 1 " " 100 recPub (by decide) (by decide) (by decide) (by decide)

/-- C8: the code classifies `"A|B"` as Korean although it contains no
character of any Hangul Unicode block — the `|` separators written
inside the regex character class of `detectLanguage` are literal class
members, so the ASCII pipe alone triggers Korean detection, contradicting
the code's own comment and the claimed detection policy. -/
theorem C8_pipe_detected_as_korean :
    detectLanguage "A|B" = Lang.ko ∧ ("A|B".data.any isHangulChar) = false := by
  decide

/-- C6: a publisher's final fragment arriving while an interim debounce
timer is pending cancels that timer, issues exactly one synchronous
Translation Gateway call carrying the full accumulated session text
including the final fragment, and the resulting broadcast event carries
`isFinal = true`. -/
theorem C6_final_preempts_interim (gw : Gateway) (st : ServerState) (ws : Nat)
    (text : String) (now : Nat) (c : ConnRecord) (p : PendingInterim)
    (r : TranslationResult)
    (hfind : findRec st.reg.conns ws = some c) (hpub : c.isPublisher = true)
    (_hpend : st.sess.interimTimeout = some p)
    (hgw : gw (joinText (baseText st.sess) text) = some r) :
    (handleTranslation gw st ws text true now).1.sess.interimTimeout = none ∧
    (handleTranslation gw st ws text true now).2
      = Effect.gatewayCall (joinText (baseText st.sess) text) ::
          broadcastToSubscribers st.reg (OutMsg.translation
            { id := MsgId.session (baseSid st.sess now)
              originalText := r.originalText
              translatedText := r.translatedText
              sourceLanguage := r.sourceLanguage
              targetLanguage := r.targetLanguage
              timestamp := now
              isFinal := true }) ∧
    ((handleTranslation gw st ws text true now).2.filter isGatewayCallE)
      = [Effect.gatewayCall (joinText (baseText st.sess) text)] := by
  have heff := final_effects_ok gw st ws text now c r hfind hpub hgw
  refine ⟨?_, heff, ?_⟩
  · rw [final_state_eq gw st ws text now c hfind hpub]
  · rw [heff, List.filter_cons]
    simp [isGatewayCallE, broadcast_no_gatewayCall]

/-- Witness for `C6_final_preempts_interim`: final fragment `"done"`
while `pendOld` is pending in session `5000`. -/
theorem C6_final_preempts_interim_witness :
    (handleTranslation gwOk stNewer 1 "done" true 6000).1.sess.interimTimeout = none ∧
    (handleTranslation gwOk stNewer 1 "done" true 6000).2
      = Effect.gatewayCall (joinText (baseText stNewer.sess) "done") ::
          broadcastToSubscribers stNewer.reg (OutMsg.translation
            { id := MsgId.session (baseSid stNewer.sess 6000)
              originalText := "new topic done"
              translatedText := "T"
              sourceLanguage := Lang.en
              targetLanguage := Lang.ko
              timestamp := 6000
              isFinal := true }) ∧
    ((handleTranslation gwOk stNewer 1 "done" true 6000).2.filter isGatewayCallE)
      = [Effect.gatewayCall (joinText (baseText stNewer.sess) "done")] :=
  C6_final_preempts_interim gwOk stNewer 1 "done" 6000 recPub pendOld
    { originalText := "new topic done", translatedText := "T",
      sourceLanguage := Lang.en, targetLanguage := Lang.ko }
    (by decide) (by decide) (by decide) (by decide)

/-- C7: the 3000ms idle timer is rearmed on every publisher fragment;
its expiry clears the session identifier and accumulated text; and a
fragment processed after expiry starts a session whose identifier is the
fresh arrival time (different from the old identifier) and whose
accumulated text is exactly the new fragment's text. -/
theorem C7_idle_session_lifecycle (gw : Gateway) (st : ServerState) (ws : Nat)
    (text : String) (fin : Bool) (now : Nat) (c : ConnRecord) (k : Nat)
    (hfind : findRec st.reg.conns ws = some c) (hpub : c.isPublisher = true)
    (hk : st.sess.currentSessionId = some k) :
    (handleTranslation gw st ws text fin now).1.sess.idleDeadline = some (now + 3000) ∧
    (sessionTimeoutFire st).1.sess.currentSessionId = none ∧
    (sessionTimeoutFire st).1.sess.currentSessionText = "" ∧
    (∀ t2 fin2 now2, k < now2 →
      (handleTranslation gw (sessionTimeoutFire st).1 ws t2 fin2 now2).1.sess.currentSessionId
          = some now2 ∧
      some now2 ≠ st.sess.currentSessionId ∧
      (handleTranslation gw (sessionTimeoutFire st).1 ws t2 fin2 now2).1.sess.currentSessionText
          = t2) := by
  refine ⟨fragment_rearms_idle gw st ws text fin now c hfind hpub, rfl, rfl, ?_⟩
  intro t2 fin2 now2 hlt
  have hfind2 : findRec (sessionTimeoutFire st).1.reg.conns ws = some c := hfind
  have hfields := fragment_session_fields gw (sessionTimeoutFire st).1 ws t2 fin2 now2 c
    hfind2 hpub
  have hbase : baseSid (sessionTimeoutFire st).1.sess now2 = now2 := rfl
  have hbt : baseText (sessionTimeoutFire st).1.sess = "" := rfl
  refine ⟨by rw [hfields.1, hbase], ?_, by rw [hfields.2, hbt]; simp [joinText]⟩
  rw [hk]
  intro h
  have := Option.some_inj.mp h
  omega

/-- Witness for `C7_idle_session_lifecycle` at the mid-session state. -/
theorem C7_idle_session_lifecycle_witness :
    (handleTranslation gwOk stMid 1 "again" false 200).1.sess.idleDeadline = some (200 + 3000) ∧
    (sessionTimeoutFire stMid).1.sess.currentSessionId = none ∧
    (sessionTimeoutFire stMid).1.sess.currentSessionText = "" ∧
    (∀ t2 fin2 now2, 100 < now2 →
      (handleTranslation gwOk (sessionTimeoutFire stMid).1 1 t2 fin2 now2).1.sess.currentSessionId
          = some now2 ∧
      some now2 ≠ stMid.sess.currentSessionId ∧
      (handleTranslation gwOk (sessionTimeoutFire stMid).1 1 t2 fin2 now2).1.sess.currentSessionText
          = t2) :=
  C7_idle_session_lifecycle gwOk stMid 1 "again" false 200 recPub 100
    (by decide) (by decide) (by decide)

/-- C9: an interim-path gateway failure is logged and dropped — the
state is untouched, no error event goes to any connection, and a
subsequent differing interim fragment schedules normally — while a
final-path gateway failure produces exactly the gateway call plus one
error event to the calling publisher (no broadcast), leaving the
registry and the session identifier intact. -/
theorem C9_gateway_failures (gw : Gateway) (st : ServerState) (ws : Nat)
    (text : String) (now : Nat) (c : ConnRecord) (p : PendingInterim)
    (hfind : findRec st.reg.conns ws = some c) (hpub : c.isPublisher = true)
    (hgwI : gw p.capturedText = none)
    (hgwF : gw (joinText (baseText st.sess) text) = none) :
    (interimTimerFire gw st p now).1 = st ∧
    (interimTimerFire gw st p now).2
      = [Effect.gatewayCall p.capturedText, Effect.log "Interim translation error"] ∧
    (∀ ws2 m, ¬ Effect.send ws2 m ∈ (interimTimerFire gw st p now).2) ∧
    (∀ t2 now2, joinText (baseText st.sess) t2 ≠ st.sess.lastInterimTranslation →
        (handleTranslation gw st ws t2 false now2).1.sess.interimTimeout
          = some { capturedText := joinText (baseText st.sess) t2
                   capturedSessionId := baseSid st.sess now2
                   deadline := now2 + 500 }) ∧
    (handleTranslation gw st ws text true now).2
      = [Effect.gatewayCall (joinText (baseText st.sess) text),
         Effect.send ws (OutMsg.errorMsg "Translation failed")] ∧
    (handleTranslation gw st ws text true now).1.reg = st.reg ∧
    (handleTranslation gw st ws text true now).1.sess.currentSessionId
      = some (baseSid st.sess now) := by
  have hfire : interimTimerFire gw st p now
      = (st, [Effect.gatewayCall p.capturedText, Effect.log "Interim translation error"]) := by
    unfold interimTimerFire
    rw [hgwI]
  refine ⟨by rw [hfire], by rw [hfire], ?_, ?_, final_effects_fail gw st ws text now c hfind hpub hgwF,
    handleTranslation_reg gw st ws text true now, (fragment_session_fields gw st ws text true now c hfind hpub).1⟩
  · intro ws2 m hm
    rw [hfire] at hm
    simp at hm
  · intro t2 now2 hded
    rw [(interim_schedules gw st ws t2 now2 c hfind hpub hded).1]

/-- Witness for `C9_gateway_failures` with the always-failing gateway. -/
theorem C9_gateway_failures_witness :
    (interimTimerFire gwFail stNewer pendOld 5600).1 = stNewer ∧
    (interimTimerFire gwFail stNewer pendOld 5600).2
      = [Effect.gatewayCall pendOld.capturedText, Effect.log "Interim translation error"] ∧
    (∀ ws2 m, ¬ Effect.send ws2 m ∈ (interimTimerFire gwFail stNewer pendOld 5600).2) ∧
    (∀ t2 now2, joinText (baseText stNewer.sess) t2 ≠ stNewer.sess.lastInterimTranslation →
        (handleTranslation gwFail stNewer 1 t2 false now2).1.sess.interimTimeout
          = some { capturedText := joinText (baseText stNewer.sess) t2
                   capturedSessionId := baseSid stNewer.sess now2
                   deadline := now2 + 500 }) ∧
    (handleTranslation gwFail stNewer 1 "oops" true 5700).2
      = [Effect.gatewayCall (joinText (baseText stNewer.sess) "oops"),
         Effect.send 1 (OutMsg.errorMsg "Translation failed")] ∧
    (handleTranslation gwFail stNewer 1 "oops" true 5700).1.reg = stNewer.reg ∧
    (handleTranslation gwFail stNewer 1 "oops" true 5700).1.sess.currentSessionId
      = some (baseSid stNewer.sess 5700) :=
  C9_gateway_failures gwFail stNewer 1 "oops" 5700 recPub pendOld
    (by decide) (by decide) (by decide) (by decide)

/-- C10: every subscriber-count broadcast carries the size of the whole
registry; with one publisher-role entry present the count equals the
number of subscriber-role entries plus one (so the publisher is
included); the connect handler broadcasts the post-registration size. -/
theorem C10_count_is_registry_size (reg : Registry) (ws now : Nat)
    (h1 : pubCount reg.conns = 1) :
    (∀ ws2 m, Effect.send ws2 m ∈ broadcastSubscriberCount reg →
        m = OutMsg.subscriberCount reg.conns.length) ∧
    reg.conns.length = subCount reg.conns + 1 ∧
    (∀ ws2 m, Effect.send ws2 m ∈ (handleConnect reg ws now).2 →
        m = OutMsg.subscriberCount (reg.conns.length + 1)) := by
  refine ⟨?_, ?_, ?_⟩
  · intro ws2 m hm
    obtain ⟨ws3, he⟩ := mem_broadcast reg _ _ hm
    exact (Effect.send.inj he).2
  · have := length_eq_subCount_add_pubCount reg.conns
    omega
  · intro ws2 m hm
    unfold handleConnect at hm
    obtain ⟨ws3, he⟩ := mem_broadcast _ _ _ hm
    rw [(Effect.send.inj he).2]
    rfl

/-- Witness for `C10_count_is_registry_size` at the two-connection
registry with publisher `1`. -/
theorem C10_count_is_registry_size_witness :
    (∀ ws2 m, Effect.send ws2 m ∈ broadcastSubscriberCount regPub1 →
        m = OutMsg.subscriberCount regPub1.conns.length) ∧
    regPub1.conns.length = subCount regPub1.conns + 1 ∧
    (∀ ws2 m, Effect.send ws2 m ∈ (handleConnect regPub1 9 99).2 →
        m = OutMsg.subscriberCount (regPub1.conns.length + 1)) :=
  C10_count_is_registry_size regPub1 9 99 (by decide)

/-- C5: over any nonempty sequence of interim fragments processed
within the debounce window, the pending scheduled gateway call always
carries the accumulated text as of the last fragment (each differing
fragment cancels and reschedules with the latest accumulated text,
emitting nothing immediately), and an interim whose accumulated text
equals the most recent trigger schedules no new call. -/
theorem C5_trailing_debounce (gw : Gateway) (st : ServerState) (ws : Nat)
    (c : ConnRecord) (l : List (String × Nat)) (t : String) (now : Nat)
    (hfind : findRec st.reg.conns ws = some c) (hpub : c.isPublisher = true)
    (hJ : pendingMatchesLast st.sess) (hl : l ≠ []) :
    (∀ p, (runInterims gw st ws l).sess.interimTimeout = some p →
        p.capturedText = (runInterims gw st ws l).sess.currentSessionText) ∧
    (joinText (baseText st.sess) t ≠ st.sess.lastInterimTranslation →
      (handleTranslation gw st ws t false now).1.sess.interimTimeout
        = some { capturedText := joinText (baseText st.sess) t
                 capturedSessionId := baseSid st.sess now
                 deadline := now + 500 } ∧
      (handleTranslation gw st ws t false now).2 = []) ∧
    (joinText (baseText st.sess) t = st.sess.lastInterimTranslation →
      (handleTranslation gw st ws t false now).1.sess.interimTimeout
        = st.sess.interimTimeout) := by
  refine ⟨(runInterims_post gw ws c l st hfind hpub hJ).2 hl, ?_, ?_⟩
  · intro hded
    refine ⟨?_, (interim_schedules gw st ws t now c hfind hpub hded).2⟩
    rw [(interim_schedules gw st ws t now c hfind hpub hded).1]
  · intro hded
    rw [(interim_dedupes gw st ws t now c hfind hpub hded).1]

/-- Witness for `C5_trailing_debounce` on a two-fragment interim run
from the fresh state. -/
theorem C5_trailing_debounce_witness :
    (∀ p, (runInterims gwOk stFresh 1 [("hi", 0), ("there", 100)]).sess.interimTimeout = some p →
        p.capturedText
          = (runInterims gwOk stFresh 1 [("hi", 0), ("there", 100)]).sess.currentSessionText) ∧
    (joinText (baseText stFresh.sess) "again" ≠ stFresh.sess.lastInterimTranslation →
      (handleTranslation gwOk stFresh 1 "again" false 200).1.sess.interimTimeout
        = some { capturedText := joinText (baseText stFresh.sess) "again"
                 capturedSessionId := baseSid stFresh.sess 200
                 deadline := 200 + 500 } ∧
      (handleTranslation gwOk stFresh 1 "again" false 200).2 = []) ∧
    (joinText (baseText stFresh.sess) "again" = stFresh.sess.lastInterimTranslation →
      (handleTranslation gwOk stFresh 1 "again" false 200).1.sess.interimTimeout
        = stFresh.sess.interimTimeout) :=
  C5_trailing_debounce gwOk stFresh 1 recPub [("hi", 0), ("there", 100)] "again" 200
    (by decide) (by decide)
    (by intro p hp; simp [stFresh] at hp) (by simp)

/-- C4: after any well-formed sequence of connects, disconnects and
authenticate calls from the empty registry, at most one registered
connection holds the publisher role; the publisher pointer names the
most recent connection that authenticated with the correct secret and
has not since disconnected, and that pointer's record is registered and
publisher-flagged; a successful authentication demotes the previous
publisher's record to subscriber while keeping it registered with its
transport state untouched; a failed authentication changes nothing. -/
theorem C4_single_publisher (tr : List RegEvent)
    (h : wfB emptyRegistry tr = true) :
    (∀ ws c ws' c', (ws, c) ∈ (regRun emptyRegistry tr).conns →
        (ws', c') ∈ (regRun emptyRegistry tr).conns →
        c.isPublisher = true → c'.isPublisher = true → ws = ws') ∧
    (regRun emptyRegistry tr).publisher = curPub none tr ∧
    (∀ p, (regRun emptyRegistry tr).publisher = some p →
        ∃ c, findRec (regRun emptyRegistry tr).conns p = some c ∧ c.isPublisher = true) ∧
    (∀ (reg : Registry) (p ws : Nat) (c : ConnRecord), reg.publisher = some p →
        findRec reg.conns p = some c → p ≠ ws →
        findRec (handleAuthentication reg ws PUBLISHER_PASSWORD).1.conns p
          = some { c with isPublisher := false }) ∧
    (∀ (reg : Registry) (ws : Nat) (pwd : String), pwd ≠ PUBLISHER_PASSWORD →
        (handleAuthentication reg ws pwd).1 = reg) := by
  obtain ⟨⟨hnd, hflag, hptr⟩, hcur⟩ := regRun_preserves tr emptyRegistry RegInv_empty h
  refine ⟨?_, hcur, hptr, ?_, handleAuthentication_failure⟩
  · intro ws c ws' c' hm hm' hc hc'
    have h1 := hflag ws c (mem_findRec_of_nodup _ hnd ws c hm) hc
    have h2 := hflag ws' c' (mem_findRec_of_nodup _ hnd ws' c' hm') hc'
    rw [h1] at h2
    exact Option.some_inj.mp h2
  · intro reg p ws c hp hc hne
    have hcond : (findRec reg.conns p).isSome = true := by
      rw [hc]
      rfl
    have hred : (handleAuthentication reg ws PUBLISHER_PASSWORD).1
        = (if (findRec (setPub reg.conns p false) ws).isSome = true
           then { conns := setPub (setPub reg.conns p false) ws true,
                  publisher := some ws }
           else { reg with conns := setPub reg.conns p false }) := by
      unfold handleAuthentication
      rw [if_pos rfl]
      simp only [hp, hcond, eq_self_iff_true, if_true]
    have hgoal : findRec (setPub reg.conns p false) p
        = some { c with isPublisher := false } := by
      rw [findRec_setPub_self, hc]
      rfl
    rw [hred]
    by_cases hws : (findRec (setPub reg.conns p false) ws).isSome = true
    · rw [if_pos hws]
      show findRec (setPub (setPub reg.conns p false) ws true) p = _
      rw [findRec_setPub_ne _ _ _ _ hne]
      exact hgoal
    · rw [if_neg hws]
      exact hgoal

/-- Witness for `C4_single_publisher` on a concrete five-event trace:
two connects, two successful authentications (the second supersedes the
first), then the second publisher disconnects. -/
theorem C4_single_publisher_witness :
    (∀ ws c ws' c',
        (ws, c) ∈ (regRun emptyRegistry
          [RegEvent.connect 1 10, RegEvent.connect 2 20,
           RegEvent.auth 1 "status2024", RegEvent.auth 2 "status2024",
           RegEvent.disconnect 2]).conns →
        (ws', c') ∈ (regRun emptyRegistry
          [RegEvent.connect 1 10, RegEvent.connect 2 20,
           RegEvent.auth 1 "status2024", RegEvent.auth 2 "status2024",
           RegEvent.disconnect 2]).conns →
        c.isPublisher = true → c'.isPublisher = true → ws = ws') ∧
    (regRun emptyRegistry
      [RegEvent.connect 1 10, RegEvent.connect 2 20,
       RegEvent.auth 1 "status2024", RegEvent.auth 2 "status2024",
       RegEvent.disconnect 2]).publisher
      = curPub none
          [RegEvent.connect 1 10, RegEvent.connect 2 20,
           RegEvent.auth 1 "status2024", RegEvent.auth 2 "status2024",
           RegEvent.disconnect 2] ∧
    (∀ p, (regRun emptyRegistry
        [RegEvent.connect 1 10, RegEvent.connect 2 20,
         RegEvent.auth 1 "status2024", RegEvent.auth 2 "status2024",
         RegEvent.disconnect 2]).publisher = some p →
        ∃ c, findRec (regRun emptyRegistry
          [RegEvent.connect 1 10, RegEvent.connect 2 20,
           RegEvent.auth 1 "status2024", RegEvent.auth 2 "status2024",
           RegEvent.disconnect 2]).conns p = some c ∧ c.isPublisher = true) ∧
    (∀ (reg : Registry) (p ws : Nat) (c : ConnRecord), reg.publisher = some p →
        findRec reg.conns p = some c → p ≠ ws →
        findRec (handleAuthentication reg ws PUBLISHER_PASSWORD).1.conns p
          = some { c with isPublisher := false }) ∧
    (∀ (reg : Registry) (ws : Nat) (pwd : String), pwd ≠ PUBLISHER_PASSWORD →
        (handleAuthentication reg ws pwd).1 = reg) :=
  C4_single_publisher
    [RegEvent.connect 1 10, RegEvent.connect 2 20,
     RegEvent.auth 1 "status2024", RegEvent.auth 2 "status2024",
     RegEvent.disconnect 2]
    (by decide)

end SNEvents
